import Mathlib

/-!
Shallow embedding of the deal health scoring engine
(`computeDealHealthScore` and its six factor scorers) from
`lib/deal-health-score` of the CRM repository.

Modelling conventions:
* JavaScript numbers are embedded as `ℚ` (the spec rules out NaN and
  non-finite values; all arithmetic performed by the scorer is exact on
  the rationals).
* Timestamps (`Date.getTime()` values) are integer milliseconds, `ℤ`.
  The "today at midnight" reference that the source derives from the
  ambient clock (`new Date(); setHours(0,0,0,0)`) is threaded through as
  an explicit parameter `todayMidnight : ℤ`, following the spec's
  injected-clock reading of the same code.
* `string | null` fields and truthiness checks on them become `Option`.
* `String.prototype.includes` is substring search; we implement it over
  the character list.  `toLowerCase` is modelled by ASCII lowercasing,
  which agrees with JavaScript on all keyword material used here.
-/

/-- ASCII lowercasing of one character, as `toLowerCase` acts on the
ASCII range. -/
def lowerChar (c : Char) : Char :=
  if 'A' ≤ c ∧ c ≤ 'Z' then Char.ofNat (c.toNat + 32) else c

/-- Lowercasing of a string, character by character. -/
def lowerStr (s : String) : String :=
  ⟨s.data.map lowerChar⟩

/-- Whether `needle` is a prefix of `hay` (character lists). -/
def isPrefixChars : List Char → List Char → Bool
  | [], _ => true
  | _ :: _, [] => false
  | a :: as, b :: bs => a == b && isPrefixChars as bs

/-- Whether `needle` occurs as a contiguous substring of `hay`. -/
def isSubstrChars (needle : List Char) : List Char → Bool
  | [] => isPrefixChars needle []
  | h :: t => isPrefixChars needle (h :: t) || isSubstrChars needle t

/-- Model of `hay.includes(needle)` on strings. -/
def strIncludes (hay needle : String) : Bool :=
  isSubstrChars needle.data hay.data

def MS_PER_DAY : ℤ := 86400000

def PUSH_SIGNALS : List String := ["pushed", "delayed", "moved out", "rescheduled"]

def POSITIVE_KEYWORDS : List String :=
  ["budget confirmed", "legal engaged", "exec sponsor",
   "timeline committed", "verbal commit", "procurement"]

def NEGATIVE_KEYWORDS : List String :=
  ["no response", "circling back", "waiting on approval",
   "reviewing internally", "pushed", "delayed", "stalled"]

def STAGE_BENCHMARKS : List (String × ℕ) :=
  [("solution qualified", 14),
   ("presenting to edm", 21),
   ("short listed", 21),
   ("contract negotiations", 28),
   ("contract signed", 14),
   ("implementing", 30)]

/-- Input record, mirroring `CRMDealInput` field for field.  Timestamp
strings are embedded as the integer milliseconds their `Date` parse
yields. -/
structure CRMDealInput where
  win_probability : Option ℚ
  stage_name : Option String
  value_amount : Option ℚ
  close_date : Option ℤ
  last_activity_at : Option ℤ
  deal_notes : Option String
  latestNoteAt : Option ℤ
  allNotesText : String

structure HealthScoreComponents where
  stageProbability : ℚ
  velocity : ℚ
  activityRecency : ℚ
  closeDateIntegrity : ℚ
  acv : ℚ
  notesSignal : ℚ

/-- The `debug` trace object returned alongside the score. -/
structure HealthDebug where
  daysSinceActivity : Option ℤ
  stageName : Option String
  notesPositive : List String
  notesNegative : List String

structure HealthScoreResult where
  score : ℤ
  components : HealthScoreComponents
  debug : HealthDebug

/-- `Math.floor` of an exact integer quotient: `Int.fdiv`. -/
def jsFloorDiv (a b : ℤ) : ℤ := a.fdiv b

/-- `Math.ceil` of an exact integer quotient. -/
def jsCeilDiv (a b : ℤ) : ℤ := -((-a).fdiv b)

/-- `Math.round`: floor of the argument plus one half (half rounds up),
exactly JavaScript's behaviour on finite values. -/
def jsRound (q : ℚ) : ℤ := ⌊q + 1/2⌋

/-- `scoreStageProbability` from the source. -/
def scoreStageProbability (winProbability : Option ℚ) : ℚ :=
  match winProbability with
  | none => 35
  | some wp => max 0 (min 100 wp)

/-- `scoreVelocity` from the source. -/
def scoreVelocity (daysSinceActivity : Option ℤ) (stageName : Option String) : ℚ :=
  match daysSinceActivity with
  | none => 70
  | some d =>
    let key := lowerStr (stageName.getD "")
    let benchmark : ℕ := (STAGE_BENCHMARKS.lookup key).getD 21
    let ratio : ℚ := (d : ℚ) / (benchmark : ℚ)
    if ratio ≤ 0.8 then 100
    else if ratio ≤ 1.2 then 70
    else if ratio ≤ 1.5 then 40
    else 10

/-- `scoreActivityRecency` from the source: prefers `latestNoteAt`,
falls back to `lastActivityAt`. -/
def scoreActivityRecency (latestNoteAt lastActivityAt : Option ℤ)
    (todayMidnight : ℤ) : ℚ :=
  let ts := match latestNoteAt with
    | some t => some t
    | none => lastActivityAt
  match ts with
  | none => 40
  | some t =>
    let days : ℤ := max 0 (jsFloorDiv (todayMidnight - t) MS_PER_DAY)
    if days ≤ 7 then 100
    else if days ≤ 14 then 70
    else if days ≤ 30 then 40
    else 10

/-- `scoreCloseDateIntegrity` from the source.  The push-signal count is
the source's accumulator loop over `PUSH_SIGNALS`. -/
def scoreCloseDateIntegrity (closeDate : Option ℤ) (stageName : Option String)
    (notesText : String) (todayMidnight : ℤ) : ℚ :=
  let base : ℚ :=
    match closeDate with
    | none => 60
    | some cd =>
      let daysUntil : ℤ := jsCeilDiv (cd - todayMidnight) MS_PER_DAY
      let stageKey := lowerStr (stageName.getD "")
      if daysUntil < 0 then
        if strIncludes stageKey "implement" || strIncludes stageKey "won" then 100
        else 10
      else if daysUntil ≤ 30 then 70
      else 100
  let text := lowerStr notesText
  let pushCount : ℕ :=
    PUSH_SIGNALS.foldl (fun n signal => if strIncludes text signal then n + 1 else n) 0
  max 10 (min 100 (base - pushCount * 20))

/-- `scoreAcv` from the source (`!valueAmount || valueAmount <= 0` is
absence or a value at most zero). -/
def scoreAcv (valueAmount : Option ℚ) (acvDistribution : List ℚ) : ℚ :=
  match valueAmount with
  | none => 40
  | some v =>
    if v ≤ 0 then 40
    else if acvDistribution.length = 0 then 40
    else
      let below := (acvDistribution.filter (fun x => x < v)).length
      let percentile : ℚ := (below : ℚ) / (acvDistribution.length : ℚ)
      if percentile ≥ 0.8 then 100
      else if percentile ≥ 0.4 then 70
      else 40

structure NotesSignalResult where
  score : ℚ
  positive : List String
  negative : List String

/-- `scoreNotesSignal` from the source: the two keyword loops are the
folds, the matched-keyword lists are the filters the pushes build. -/
def scoreNotesSignal (notesText : String) : NotesSignalResult :=
  let text := lowerStr notesText
  let positive := POSITIVE_KEYWORDS.filter (fun kw => strIncludes text kw)
  let negative := NEGATIVE_KEYWORDS.filter (fun kw => strIncludes text kw)
  let score1 : ℚ :=
    POSITIVE_KEYWORDS.foldl (fun s kw => if strIncludes text kw then s + 10 else s) 50
  let score2 : ℚ :=
    NEGATIVE_KEYWORDS.foldl (fun s kw => if strIncludes text kw then s - 10 else s) score1
  { score := max 0 (min 100 score2), positive := positive, negative := negative }

/-- The combined notes text `[deal.deal_notes ?? '', deal.allNotesText].join(' ')`. -/
def combinedNotesText (deal : CRMDealInput) : String :=
  (deal.deal_notes.getD "") ++ " " ++ deal.allNotesText

/-- The weighted aggregation step of `computeDealHealthScore`:
`Object.values(weights)` / `Object.keys(weights)` reduces, unrolled over
the six keys in insertion order, then `Math.round` and the clamp. -/
def aggregateScore (c : HealthScoreComponents) : ℤ :=
  let totalWeight : ℚ := [(25 : ℚ), 20, 15, 10, 15, 15].foldl (· + ·) 0
  let weightedSum : ℚ :=
    [((25 : ℚ), c.stageProbability), (20, c.velocity), (15, c.activityRecency),
     (10, c.closeDateIntegrity), (15, c.acv), (15, c.notesSignal)].foldl
      (fun s wc => s + wc.1 * wc.2) 0
  max 0 (min 100 (jsRound (weightedSum / totalWeight)))

/-- `computeDealHealthScore` from the source. -/
def computeDealHealthScore (deal : CRMDealInput) (acvDistribution : List ℚ)
    (todayMidnight : ℤ) : HealthScoreResult :=
  let allText := combinedNotesText deal
  let daysSinceActivity : Option ℤ :=
    match deal.last_activity_at with
    | none => none
    | some t => some (max 0 (jsFloorDiv (todayMidnight - t) MS_PER_DAY))
  let notesResult := scoreNotesSignal allText
  let components : HealthScoreComponents :=
    { stageProbability := scoreStageProbability deal.win_probability
      velocity := scoreVelocity daysSinceActivity deal.stage_name
      activityRecency := scoreActivityRecency deal.latestNoteAt deal.last_activity_at todayMidnight
      closeDateIntegrity := scoreCloseDateIntegrity deal.close_date deal.stage_name allText todayMidnight
      acv := scoreAcv deal.value_amount acvDistribution
      notesSignal := notesResult.score }
  { score := aggregateScore components
    components := components
    debug :=
      { daysSinceActivity := daysSinceActivity
        stageName := deal.stage_name
        notesPositive := notesResult.positive
        notesNegative := notesResult.negative } }

/-- The all-absent snapshot used by the spec's default-on-absence test. -/
def allAbsentSnapshot : CRMDealInput :=
  { win_probability := none
    stage_name := none
    value_amount := none
    close_date := none
    last_activity_at := none
    deal_notes := none
    latestNoteAt := none
    allNotesText := "" }

/-! ### Spec-side definitions

Each `spec…` definition below restates a factor formula in the words of
the specification, to be compared against the embedded source. -/

/-- Clamp `x` into the closed interval `[lo, hi]`. -/
def clampQ (x lo hi : ℚ) : ℚ := max lo (min hi x)

/-- Number of distinct push-signal phrases occurring at least once in the
lower-cased text, as the spec words it. -/
def specPushCount (text : String) : ℕ :=
  (PUSH_SIGNALS.filter (fun p => strIncludes (lowerStr text) p)).length

/-- The close-date-integrity base of the spec: 60 when the close date is
absent; when overdue, 100 for implement/won stages and 10 otherwise; 70
within 30 days; 100 beyond. -/
def specCloseBase (closeDate : Option ℤ) (stageName : Option String)
    (todayMidnight : ℤ) : ℚ :=
  match closeDate with
  | none => 60
  | some cd =>
    let daysUntil : ℤ := jsCeilDiv (cd - todayMidnight) MS_PER_DAY
    let stage := lowerStr (stageName.getD "")
    if daysUntil < 0 then
      if strIncludes stage "implement" || strIncludes stage "won" then 100 else 10
    else if daysUntil ≤ 30 then 70
    else 100

/-- The spec's close-date-integrity factor:
`clamp(base − pushCount × 20, 10, 100)`. -/
def specCloseDateIntegrity (closeDate : Option ℤ) (stageName : Option String)
    (text : String) (todayMidnight : ℤ) : ℚ :=
  clampQ (specCloseBase closeDate stageName todayMidnight - specPushCount text * 20) 10 100

/-- The spec's per-stage benchmark table with default 21, written as the
explicit case table the spec lists. -/
def specStageBenchmark (stageName : Option String) : ℕ :=
  let key := lowerStr (stageName.getD "")
  if key = "solution qualified" then 14
  else if key = "presenting to edm" then 21
  else if key = "short listed" then 21
  else if key = "contract negotiations" then 28
  else if key = "contract signed" then 14
  else if key = "implementing" then 30
  else 21

/-- The spec's velocity factor. -/
def specVelocity (lastActivityAt : Option ℤ) (stageName : Option String)
    (todayMidnight : ℤ) : ℚ :=
  match lastActivityAt with
  | none => 70
  | some t =>
    let d : ℤ := max 0 (jsFloorDiv (todayMidnight - t) MS_PER_DAY)
    let b : ℕ := specStageBenchmark stageName
    if (d : ℚ) / (b : ℚ) ≤ 0.8 then 100
    else if (d : ℚ) / (b : ℚ) ≤ 1.2 then 70
    else if (d : ℚ) / (b : ℚ) ≤ 1.5 then 40
    else 10

/-- The spec's notes-signal factor: `clamp(50 + 10·P − 10·N, 0, 100)`
over the distinct positive and negative keyword counts. -/
def specNotesSignal (text : String) : ℚ :=
  let t := lowerStr text
  let p : ℕ := (POSITIVE_KEYWORDS.filter (fun kw => strIncludes t kw)).length
  let n : ℕ := (NEGATIVE_KEYWORDS.filter (fun kw => strIncludes t kw)).length
  clampQ (50 + 10 * p - 10 * n) 0 100

/-- The spec's ACV factor: 40 when unsized or the population is empty,
else banded by the strict-percentile. -/
def specAcv (valueAmount : Option ℚ) (pop : List ℚ) : ℚ :=
  match valueAmount with
  | none => 40
  | some v =>
    if v ≤ 0 ∨ pop = [] then 40
    else
      let percentile : ℚ := ((pop.filter (fun x => x < v)).length : ℚ) / (pop.length : ℚ)
      if 0.8 ≤ percentile then 100
      else if 0.4 ≤ percentile then 70
      else 40

/-- The spec's aggregation:
`clamp(round((25·sp + 20·v + 15·ar + 10·cdi + 15·acv + 15·ns)/100), 0, 100)`. -/
def specFinalScore (c : HealthScoreComponents) : ℤ :=
  max 0 (min 100 (jsRound ((25 * c.stageProbability + 20 * c.velocity
    + 15 * c.activityRecency + 10 * c.closeDateIntegrity
    + 15 * c.acv + 15 * c.notesSignal) / 100)))

/-! ### Bridge lemmas -/

/-- A counting fold (the source's `pushCount++` loop) counts the
matching elements. -/
theorem foldl_count_eq (l : List String) (p : String → Bool) (n : ℕ) :
    l.foldl (fun acc a => if p a then acc + 1 else acc) n = n + (l.filter p).length := by
  induction l generalizing n with
  | nil => simp
  | cons h t ih =>
    by_cases hp : p h
    · simp [List.filter, hp, ih]; omega
    · simp [List.filter, hp, ih]

/-- An accumulating fold adding `c` per match (the positive-keyword
loop) adds `c` times the match count. -/
theorem foldl_add_count (l : List String) (p : String → Bool) (c : ℚ) (init : ℚ) :
    l.foldl (fun s kw => if p kw then s + c else s) init
      = init + c * ((l.filter p).length : ℚ) := by
  induction l generalizing init with
  | nil => simp
  | cons h t ih =>
    by_cases hp : p h
    · simp [List.filter, hp, ih]; ring
    · simp [List.filter, hp, ih]

/-- An accumulating fold subtracting `c` per match (the negative-keyword
loop) subtracts `c` times the match count. -/
theorem foldl_sub_count (l : List String) (p : String → Bool) (c : ℚ) (init : ℚ) :
    l.foldl (fun s kw => if p kw then s - c else s) init
      = init - c * ((l.filter p).length : ℚ) := by
  induction l generalizing init with
  | nil => simp
  | cons h t ih =>
    by_cases hp : p h
    · simp [List.filter, hp, ih]; ring
    · simp [List.filter, hp, ih]

/-- The source's association-list benchmark lookup agrees with the
spec's explicit case table. -/
theorem benchmark_lookup_eq (key : String) :
    (STAGE_BENCHMARKS.lookup key).getD 21 =
      (if key = "solution qualified" then 14
       else if key = "presenting to edm" then 21
       else if key = "short listed" then 21
       else if key = "contract negotiations" then 28
       else if key = "contract signed" then 14
       else if key = "implementing" then 30
       else 21) := by
  simp only [STAGE_BENCHMARKS, List.lookup]
  split_ifs with h1 h2 h3 h4 h5 h6
  · subst h1; rfl
  · subst h2; rfl
  · subst h3; rfl
  · subst h4; rfl
  · subst h5; rfl
  · subst h6; rfl
  · rw [beq_eq_false_iff_ne.mpr h1, beq_eq_false_iff_ne.mpr h2, beq_eq_false_iff_ne.mpr h3,
        beq_eq_false_iff_ne.mpr h4, beq_eq_false_iff_ne.mpr h5, beq_eq_false_iff_ne.mpr h6]
    rfl

/-- A snapshot whose stage-level win probability is the fractional value
35.5 — in-domain for the spec, which types `winProbability` as a number
in [0, 100]. -/
def fractionalWpSnapshot : CRMDealInput :=
  { allAbsentSnapshot with win_probability := some (71/2) }

/-! ### Helper lemmas -/

/-- When a snapshot carries no timestamps at all, the scoring result does
not depend on the midnight reference. -/
theorem mid_irrel (deal : CRMDealInput) (pop : List ℚ) (mid : ℤ)
    (h1 : deal.last_activity_at = none) (h2 : deal.latestNoteAt = none)
    (h3 : deal.close_date = none) :
    computeDealHealthScore deal pop mid = computeDealHealthScore deal pop 0 := by
  simp only [computeDealHealthScore, scoreActivityRecency, scoreCloseDateIntegrity, h1, h2, h3]

/-- The stage-probability factor is clamped into [0, 100]. -/
theorem scoreStageProbability_range (wp : Option ℚ) :
    0 ≤ scoreStageProbability wp ∧ scoreStageProbability wp ≤ 100 := by
  cases wp with
  | none => norm_num [scoreStageProbability]
  | some v =>
    refine ⟨le_max_left 0 _, ?_⟩
    simp only [scoreStageProbability]
    exact max_le (by norm_num) (min_le_left _ _)

/-- The velocity factor only takes the four band values. -/
theorem scoreVelocity_cases (d : Option ℤ) (sn : Option String) :
    scoreVelocity d sn = 10 ∨ scoreVelocity d sn = 40 ∨
    scoreVelocity d sn = 70 ∨ scoreVelocity d sn = 100 := by
  cases d with
  | none => simp [scoreVelocity]
  | some t =>
    simp only [scoreVelocity]
    split_ifs <;> simp

/-- The activity-recency factor only takes the four band values. -/
theorem scoreActivityRecency_cases (ln la : Option ℤ) (mid : ℤ) :
    scoreActivityRecency ln la mid = 10 ∨ scoreActivityRecency ln la mid = 40 ∨
    scoreActivityRecency ln la mid = 70 ∨ scoreActivityRecency ln la mid = 100 := by
  cases ln with
  | some t =>
    simp only [scoreActivityRecency]
    split_ifs <;> simp
  | none =>
    cases la with
    | none => simp [scoreActivityRecency]
    | some t =>
      simp only [scoreActivityRecency]
      split_ifs <;> simp

/-- The ACV factor only takes the three band values. -/
theorem scoreAcv_cases (v : Option ℚ) (pop : List ℚ) :
    scoreAcv v pop = 40 ∨ scoreAcv v pop = 70 ∨ scoreAcv v pop = 100 := by
  cases v with
  | none => simp [scoreAcv]
  | some x =>
    simp only [scoreAcv]
    split_ifs <;> simp

/-- Clamping an integer-valued rational minus a push deduction stays an
integer between the clamp bounds. -/
theorem clamp_int_shape (b : ℚ) (p : ℕ) (lo hi : ℤ) (hlohi : lo ≤ hi)
    (hb : ∃ bz : ℤ, b = (bz : ℚ)) :
    ∃ n : ℤ, max (lo : ℚ) (min (hi : ℚ) (b - p * 20)) = (n : ℚ) ∧ lo ≤ n ∧ n ≤ hi := by
  obtain ⟨bz, rfl⟩ := hb
  refine ⟨max lo (min hi (bz - p * 20)), ?_, le_max_left _ _,
    max_le hlohi (min_le_left _ _)⟩
  push_cast
  rfl

/-- Clamping an integer cast stays an integer between the clamp bounds. -/
theorem clamp_int_cast (x : ℤ) (lo hi : ℤ) (hlohi : lo ≤ hi) :
    ∃ n : ℤ, max (lo : ℚ) (min (hi : ℚ) (x : ℚ)) = (n : ℚ) ∧ lo ≤ n ∧ n ≤ hi := by
  refine ⟨max lo (min hi x), ?_, le_max_left _ _, max_le hlohi (min_le_left _ _)⟩
  push_cast
  rfl

/-- The close-date-integrity factor is an integer in [10, 100]. -/
theorem scoreCloseDateIntegrity_int (cd : Option ℤ) (sn : Option String)
    (text : String) (mid : ℤ) :
    ∃ n : ℤ, scoreCloseDateIntegrity cd sn text mid = (n : ℚ) ∧ 10 ≤ n ∧ n ≤ 100 := by
  simp only [scoreCloseDateIntegrity]
  apply clamp_int_shape _ _ 10 100 (by norm_num)
  cases cd with
  | none => exact ⟨60, by norm_num⟩
  | some c =>
    dsimp only
    split_ifs
    · exact ⟨100, by norm_num⟩
    · exact ⟨10, by norm_num⟩
    · exact ⟨70, by norm_num⟩
    · exact ⟨100, by norm_num⟩

/-- The notes-signal factor is an integer in [0, 100]. -/
theorem scoreNotesSignal_int (text : String) :
    ∃ n : ℤ, (scoreNotesSignal text).score = (n : ℚ) ∧ 0 ≤ n ∧ n ≤ 100 := by
  simp only [scoreNotesSignal, foldl_add_count, foldl_sub_count]
  have h : (50 : ℚ)
      + 10 * ((POSITIVE_KEYWORDS.filter (fun kw => strIncludes (lowerStr text) kw)).length : ℚ)
      - 10 * ((NEGATIVE_KEYWORDS.filter (fun kw => strIncludes (lowerStr text) kw)).length : ℚ)
      = ((50 + 10 * ((POSITIVE_KEYWORDS.filter (fun kw => strIncludes (lowerStr text) kw)).length : ℤ)
        - 10 * ((NEGATIVE_KEYWORDS.filter (fun kw => strIncludes (lowerStr text) kw)).length : ℤ) : ℤ) : ℚ) := by
    push_cast
    ring
  rw [h]
  exact clamp_int_cast _ 0 100 (by norm_num)

/-- The aggregated final score is clamped into [0, 100]. -/
theorem aggregateScore_range (c : HealthScoreComponents) :
    0 ≤ aggregateScore c ∧ aggregateScore c ≤ 100 := by
  simp only [aggregateScore]
  exact ⟨le_max_left _ _, max_le (by norm_num) (min_le_left _ _)⟩

/-- A value from a four-band case split is an integer in [0, 100]. -/
theorem quad_cases_int (x : ℚ)
    (h : x = 10 ∨ x = 40 ∨ x = 70 ∨ x = 100) :
    ∃ n : ℤ, x = (n : ℚ) ∧ 0 ≤ n ∧ n ≤ 100 := by
  rcases h with h | h | h | h <;> subst h
  · exact ⟨10, by norm_num⟩
  · exact ⟨40, by norm_num⟩
  · exact ⟨70, by norm_num⟩
  · exact ⟨100, by norm_num⟩

/-- The source's fold-based aggregation equals the spec's closed
weighted-average formula. -/
theorem aggregateScore_eq_spec (c : HealthScoreComponents) :
    aggregateScore c = specFinalScore c := by
  unfold aggregateScore specFinalScore
  simp only [List.foldl]
  have h1 : (0 : ℚ) + 25 + 20 + 15 + 10 + 15 + 15 = 100 := by norm_num
  have h2 : (0 : ℚ) + 25 * c.stageProbability + 20 * c.velocity + 15 * c.activityRecency
      + 10 * c.closeDateIntegrity + 15 * c.acv + 15 * c.notesSignal
      = 25 * c.stageProbability + 20 * c.velocity + 15 * c.activityRecency
      + 10 * c.closeDateIntegrity + 15 * c.acv + 15 * c.notesSignal := by ring
  rw [h1, h2]

/-- Counting population entries strictly below a value is monotone in the
value. -/
theorem filter_lt_length_mono (l : List ℚ) (a b : ℚ) (h : a ≤ b) :
    (l.filter (fun x => x < a)).length ≤ (l.filter (fun x => x < b)).length := by
  induction l with
  | nil => simp
  | cons x t ih =>
    by_cases hx : x < a
    · have hxb : x < b := lt_of_lt_of_le hx h
      simp [List.filter, hx, hxb]
      omega
    · by_cases hxb : x < b
      · simp [List.filter, hx, hxb]
        omega
      · simp [List.filter, hx, hxb]
        exact ih

/-- The ACV factor is monotone in a positive deal value. -/
theorem scoreAcv_mono (pop : List ℚ) (a b : ℚ) (ha : 0 < a) (hab : a ≤ b) :
    scoreAcv (some a) pop ≤ scoreAcv (some b) pop := by
  simp only [scoreAcv]
  have ha' : ¬ a ≤ 0 := not_le.mpr ha
  have hb' : ¬ b ≤ 0 := not_le.mpr (lt_of_lt_of_le ha hab)
  by_cases hlen : pop.length = 0
  · simp [ha', hb', hlen]
  · have hpos : (0 : ℚ) < (pop.length : ℚ) := by
      have := Nat.pos_of_ne_zero hlen
      exact_mod_cast this
    have hcount := filter_lt_length_mono pop a b hab
    have hperc : ((pop.filter (fun x => x < a)).length : ℚ) / (pop.length : ℚ)
        ≤ ((pop.filter (fun x => x < b)).length : ℚ) / (pop.length : ℚ) :=
      (div_le_div_iff_of_pos_right hpos).mpr (by exact_mod_cast hcount)
    simp only [ha', hb', hlen, if_false]
    split_ifs
    all_goals try norm_num
    all_goals (norm_num at *; linarith)

/-! ### Claim theorems -/

/-- C1 (amended): for every input, `computeDealHealthScore` is total and
every breakdown factor and the final score lies in [0, 100]; the
velocity, activity-recency, close-date-integrity, ACV and notes-signal
factors and the final score are integers.  (The stage-probability factor
is the clamp of `winProbability` and is an integer only when
`winProbability` is absent or integral — see the counterexample.) -/
theorem C1_range_invariant (deal : CRMDealInput) (pop : List ℚ) (mid : ℤ) :
    (0 ≤ (computeDealHealthScore deal pop mid).components.stageProbability
      ∧ (computeDealHealthScore deal pop mid).components.stageProbability ≤ 100)
  ∧ (∃ n : ℤ, (computeDealHealthScore deal pop mid).components.velocity = (n : ℚ)
      ∧ 0 ≤ n ∧ n ≤ 100)
  ∧ (∃ n : ℤ, (computeDealHealthScore deal pop mid).components.activityRecency = (n : ℚ)
      ∧ 0 ≤ n ∧ n ≤ 100)
  ∧ (∃ n : ℤ, (computeDealHealthScore deal pop mid).components.closeDateIntegrity = (n : ℚ)
      ∧ 0 ≤ n ∧ n ≤ 100)
  ∧ (∃ n : ℤ, (computeDealHealthScore deal pop mid).components.acv = (n : ℚ)
      ∧ 0 ≤ n ∧ n ≤ 100)
  ∧ (∃ n : ℤ, (computeDealHealthScore deal pop mid).components.notesSignal = (n : ℚ)
      ∧ 0 ≤ n ∧ n ≤ 100)
  ∧ (0 ≤ (computeDealHealthScore deal pop mid).score
      ∧ (computeDealHealthScore deal pop mid).score ≤ 100) := by
  refine ⟨scoreStageProbability_range deal.win_probability, ?_, ?_, ?_, ?_, ?_, ?_⟩
  · exact quad_cases_int _ (scoreVelocity_cases _ deal.stage_name)
  · exact quad_cases_int _ (scoreActivityRecency_cases deal.latestNoteAt deal.last_activity_at mid)
  · obtain ⟨n, hn, h1, h2⟩ := scoreCloseDateIntegrity_int deal.close_date deal.stage_name
      (combinedNotesText deal) mid
    exact ⟨n, hn, by omega, h2⟩
  · rcases scoreAcv_cases deal.value_amount pop with h | h | h
    · exact ⟨40, h, by norm_num⟩
    · exact ⟨70, h, by norm_num⟩
    · exact ⟨100, h, by norm_num⟩
  · obtain ⟨n, hn, h1, h2⟩ := scoreNotesSignal_int (combinedNotesText deal)
    exact ⟨n, hn, h1, h2⟩
  · exact aggregateScore_range _

/-- C1 counterexample: with `winProbability = 35.5` (in-domain: a number
in [0, 100]) the stage-probability breakdown factor is 35.5, which is not
an integer, so the claim's "each factor score is an integer" fails. -/
theorem C1_counterexample :
    (computeDealHealthScore fractionalWpSnapshot [] 0).components.stageProbability = 71/2
  ∧ ¬ ∃ n : ℤ,
      (computeDealHealthScore fractionalWpSnapshot [] 0).components.stageProbability = (n : ℚ) := by
  have hval : (computeDealHealthScore fractionalWpSnapshot [] 0).components.stageProbability
      = 71/2 := by with_unfolding_all decide
  refine ⟨hval, ?_⟩
  rintro ⟨n, h⟩
  have hden : ((71 : ℚ)/2).den = 2 := by with_unfolding_all decide
  rw [hval] at h
  rw [h, Rat.den_intCast] at hden
  exact absurd hden (by decide)

/-- C2 (amended): the all-absent snapshot with an empty comparison
population yields breakdown {35, 70, 40, 60, 40, 50} for any midnight
reference, and final score `round((25·35+20·70+15·40+10·60+15·40+15·50)/100)
= round(48.25) = 48`. -/
theorem C2_default_on_absence (mid : ℤ) :
    (computeDealHealthScore allAbsentSnapshot [] mid).components.stageProbability = 35
  ∧ (computeDealHealthScore allAbsentSnapshot [] mid).components.velocity = 70
  ∧ (computeDealHealthScore allAbsentSnapshot [] mid).components.activityRecency = 40
  ∧ (computeDealHealthScore allAbsentSnapshot [] mid).components.closeDateIntegrity = 60
  ∧ (computeDealHealthScore allAbsentSnapshot [] mid).components.acv = 40
  ∧ (computeDealHealthScore allAbsentSnapshot [] mid).components.notesSignal = 50
  ∧ (computeDealHealthScore allAbsentSnapshot [] mid).score = 48 := by
  rw [mid_irrel allAbsentSnapshot [] mid rfl rfl rfl]
  refine ⟨?_, ?_, ?_, ?_, ?_, ?_, ?_⟩ <;> with_unfolding_all decide

/-- C2 counterexample: the all-absent snapshot does not score 45 — the
claimed weighted sum is mis-evaluated in the spec
(25·35+20·70+15·40+10·60+15·40+15·50 = 4825, so the score is
round(48.25) = 48, not round(45.25) = 45). -/
theorem C2_counterexample :
    ¬ ((computeDealHealthScore allAbsentSnapshot [] 0).score = 45) := by
  with_unfolding_all decide

/-- C3 (amended): with population [10, 20, 30, 40, 50], value 41 has 4 of
5 entries strictly below it, percentile 0.8, and scores acv = 100; value
25 has 2 of 5 entries strictly below it (10 and 20), percentile 0.4, and
scores acv = 70. -/
theorem C3_percentile_boundary (mid : ℤ) :
    ((([10, 20, 30, 40, 50] : List ℚ).filter (fun x => x < 41)).length = 4)
  ∧ ((([10, 20, 30, 40, 50] : List ℚ).filter (fun x => x < 41)).length : ℚ) / 5 = 0.8
  ∧ (computeDealHealthScore { allAbsentSnapshot with value_amount := some 41 }
      [10, 20, 30, 40, 50] mid).components.acv = 100
  ∧ ((([10, 20, 30, 40, 50] : List ℚ).filter (fun x => x < 25)).length = 2)
  ∧ ((([10, 20, 30, 40, 50] : List ℚ).filter (fun x => x < 25)).length : ℚ) / 5 = 0.4
  ∧ (computeDealHealthScore { allAbsentSnapshot with value_amount := some 25 }
      [10, 20, 30, 40, 50] mid).components.acv = 70 := by
  rw [mid_irrel { allAbsentSnapshot with value_amount := some 41 } [10, 20, 30, 40, 50] mid
        rfl rfl rfl,
      mid_irrel { allAbsentSnapshot with value_amount := some 25 } [10, 20, 30, 40, 50] mid
        rfl rfl rfl]
  refine ⟨?_, ?_, ?_, ?_, ?_, ?_⟩ <;> with_unfolding_all decide

/-- C3 counterexample: with population [10, 20, 30, 40, 50] and
valueAmount 25, the ACV factor is not 40 (both 10 and 20 are strictly
below 25, so the percentile is 0.4 and the factor is 70). -/
theorem C3_counterexample :
    ¬ ((computeDealHealthScore { allAbsentSnapshot with value_amount := some 25 }
        [10, 20, 30, 40, 50] 0).components.acv = 40) := by
  with_unfolding_all decide

/-- C4: for every input, the close-date-integrity factor of
`computeDealHealthScore` equals the spec's
`clamp(base − pushCount × 20, 10, 100)` with base 60/100/10/70/100 by
close-date case and pushCount the number of distinct push-signal phrases
in the lower-cased combined notes text. -/
theorem C4_closeDateIntegrity_spec (deal : CRMDealInput) (pop : List ℚ) (mid : ℤ) :
    (computeDealHealthScore deal pop mid).components.closeDateIntegrity
      = specCloseDateIntegrity deal.close_date deal.stage_name (combinedNotesText deal) mid := by
  show scoreCloseDateIntegrity deal.close_date deal.stage_name (combinedNotesText deal) mid = _
  simp only [scoreCloseDateIntegrity, specCloseDateIntegrity, specCloseBase, specPushCount,
    clampQ, foldl_count_eq, Nat.zero_add]

/-- C5: for every input, the velocity factor of `computeDealHealthScore`
is 70 when `lastActivityAt` is absent, and otherwise is banded by
days-since-activity over the per-stage benchmark (default 21) exactly as
the spec's table states. -/
theorem C5_velocity_spec (deal : CRMDealInput) (pop : List ℚ) (mid : ℤ) :
    (computeDealHealthScore deal pop mid).components.velocity
      = specVelocity deal.last_activity_at deal.stage_name mid := by
  cases h : deal.last_activity_at with
  | none =>
    show scoreVelocity (match deal.last_activity_at with
      | none => none
      | some t => some (max 0 (jsFloorDiv (mid - t) MS_PER_DAY))) deal.stage_name = _
    rw [h]
    rfl
  | some t =>
    show scoreVelocity (match deal.last_activity_at with
      | none => none
      | some t => some (max 0 (jsFloorDiv (mid - t) MS_PER_DAY))) deal.stage_name = _
    rw [h]
    simp only [scoreVelocity, specVelocity, specStageBenchmark, benchmark_lookup_eq]

/-- C6: for every input, the notes-signal factor of
`computeDealHealthScore` equals the spec's `clamp(50 + 10·P − 10·N, 0,
100)` over the distinct positive and negative keyword counts of the
lower-cased combined notes text; in particular notes containing "Budget
Confirmed" and "Exec Sponsor" (mixed casing) and no negative keyword
score 70. -/
theorem C6_notesSignal_spec :
    (∀ (deal : CRMDealInput) (pop : List ℚ) (mid : ℤ),
      (computeDealHealthScore deal pop mid).components.notesSignal
        = specNotesSignal (combinedNotesText deal))
  ∧ (computeDealHealthScore
      { allAbsentSnapshot with allNotesText := "Budget Confirmed and Exec Sponsor onboard" }
      [] 0).components.notesSignal = 70 := by
  constructor
  · intro deal pop mid
    show (scoreNotesSignal (combinedNotesText deal)).score = _
    simp only [scoreNotesSignal, specNotesSignal, clampQ, foldl_add_count, foldl_sub_count]
  · with_unfolding_all decide

/-- C7: for every input, the ACV factor of `computeDealHealthScore` is 40
when the value is absent, non-positive, or the comparison population is
empty, and otherwise is banded by the strict percentile exactly as the
spec states. -/
theorem C7_acv_spec (deal : CRMDealInput) (pop : List ℚ) (mid : ℤ) :
    (computeDealHealthScore deal pop mid).components.acv = specAcv deal.value_amount pop := by
  show scoreAcv deal.value_amount pop = _
  cases hv : deal.value_amount with
  | none => rfl
  | some v =>
    simp only [scoreAcv, specAcv]
    by_cases h0 : v ≤ 0
    · simp [h0]
    · by_cases hp : pop = []
      · simp [h0, hp]
      · have hl : ¬ pop.length = 0 := by simpa [List.length_eq_zero] using hp
        simp [h0, hp, hl, ge_iff_le]

/-- C8: for every input, the final score of `computeDealHealthScore`
equals the spec's `clamp(round((25·sp + 20·v + 15·ar + 10·cdi + 15·acv +
15·ns)/100), 0, 100)` over its computed components; the aggregation maps
the all-100 breakdown to 100 and the all-0 breakdown to 0. -/
theorem C8_aggregation_spec :
    (∀ (deal : CRMDealInput) (pop : List ℚ) (mid : ℤ),
      (computeDealHealthScore deal pop mid).score
        = specFinalScore (computeDealHealthScore deal pop mid).components)
  ∧ aggregateScore ⟨100, 100, 100, 100, 100, 100⟩ = 100
  ∧ aggregateScore ⟨0, 0, 0, 0, 0, 0⟩ = 0 := by
  refine ⟨?_, by with_unfolding_all decide, by with_unfolding_all decide⟩
  intro deal pop mid
  exact aggregateScore_eq_spec _

/-- C9: `computeDealHealthScore` is deterministic — two invocations with
equal snapshots, equal comparison populations and equal midnight
references return equal results (score, all components, and debug trace);
the embedding is a pure function of exactly these inputs. -/
theorem C9_determinism (d1 d2 : CRMDealInput) (p1 p2 : List ℚ) (m1 m2 : ℤ)
    (hd : d1 = d2) (hp : p1 = p2) (hm : m1 = m2) :
    computeDealHealthScore d1 p1 m1 = computeDealHealthScore d2 p2 m2 := by
  rw [hd, hp, hm]

/-- C9 witness: determinism instantiated at the all-absent snapshot. -/
theorem C9_determinism_witness :
    allAbsentSnapshot = allAbsentSnapshot
  ∧ computeDealHealthScore allAbsentSnapshot [] 0 = computeDealHealthScore allAbsentSnapshot [] 0 :=
  ⟨rfl, C9_determinism allAbsentSnapshot allAbsentSnapshot [] [] 0 0 rfl rfl rfl⟩

/-- C10: the ACV factor is monotone non-decreasing in the deal value —
for positive values a ≤ b with every other input held equal, the ACV
factor at a is at most the ACV factor at b. -/
theorem C10_acv_monotone (deal : CRMDealInput) (pop : List ℚ) (mid : ℤ) (a b : ℚ)
    (ha : 0 < a) (hab : a ≤ b) :
    (computeDealHealthScore { deal with value_amount := some a } pop mid).components.acv
      ≤ (computeDealHealthScore { deal with value_amount := some b } pop mid).components.acv := by
  show scoreAcv (some a) pop ≤ scoreAcv (some b) pop
  exact scoreAcv_mono pop a b ha hab

/-- C10 witness: monotonicity instantiated at values 25 ≤ 41 over the
population [10, 20, 30, 40, 50]. -/
theorem C10_acv_monotone_witness :
    (0 : ℚ) < 25 ∧ (25 : ℚ) ≤ 41 ∧
    (computeDealHealthScore { allAbsentSnapshot with value_amount := some 25 }
        [10, 20, 30, 40, 50] 0).components.acv
      ≤ (computeDealHealthScore { allAbsentSnapshot with value_amount := some 41 }
        [10, 20, 30, 40, 50] 0).components.acv :=
  ⟨by norm_num, by norm_num,
    C10_acv_monotone allAbsentSnapshot [10, 20, 30, 40, 50] 0 25 41 (by norm_num) (by norm_num)⟩
